import Mathlib

/- Verification of src/script/proxy_updater.py (proxy quality evaluation engine).

   Modelling conventions:
   * Python floats are modelled as exact rationals (ℚ).
   * Python `None` is `Option.none`; a dict key that is always present but may
     hold `None` becomes a structure field of type `Option ℚ`.
   * A raised Python exception escaping a function is `Except.error ()`.
   * `statistics.stdev` takes an irrational square root; the square root is
     abstracted as an explicit function parameter `sqrtF : ℚ → ℚ` (the sample
     variance itself is computed exactly).
   * Network I/O (one HTTP probe) is modelled by passing the outcome of the
     request as an explicit input value. -/

/-- Python `int(x)` on an exact rational: truncation toward zero. -/
def pyInt (q : ℚ) : ℤ := if 0 ≤ q then ⌊q⌋ else ⌈q⌉

/-- `statistics.mean` on a non-empty list (every call site guards emptiness). -/
def listMean (l : List ℚ) : ℚ := l.sum / l.length

/-- Insertion step of the model of Python `sorted` on numeric lists. -/
def insertAsc (x : ℚ) : List ℚ → List ℚ
  | [] => [x]
  | y :: ys => if x < y then x :: y :: ys else y :: insertAsc x ys

/-- Python `sorted` on a list of numbers (ascending). -/
def pySort (l : List ℚ) : List ℚ := l.foldl (fun acc x => insertAsc x acc) []

/-- `statistics.median` on a non-empty list: middle element for odd length,
    average of the two middle elements for even length. -/
def pyMedian (l : List ℚ) : ℚ :=
  let s := pySort l
  let n := s.length
  if n % 2 = 1 then s.getD (n / 2) 0
  else (s.getD (n / 2 - 1) 0 + s.getD (n / 2) 0) / 2

/-- `LatencyStatistics._percentile` (proxy_updater.py:432-461): linear
    interpolation on an already sorted list; `p ≤ 0` gives the first element,
    `p ≥ 100` the last. -/
def _percentile (sorted_data : List ℚ) (percentile : ℚ) : Option ℚ :=
  if sorted_data.isEmpty then none
  else if percentile ≤ 0 then some (sorted_data.headD 0)
  else if 100 ≤ percentile then some (sorted_data.getLastD 0)
  else
    let index : ℚ := ((sorted_data.length : ℚ) - 1) * percentile / 100
    let lower_index : ℤ := ⌊index⌋
    let upper_index : ℤ := ⌈index⌉
    if lower_index = upper_index then some (sorted_data.getD lower_index.toNat 0)
    else
      let weight : ℚ := index - lower_index
      some (sorted_data.getD lower_index.toNat 0 * (1 - weight) +
            sorted_data.getD upper_index.toNat 0 * weight)

/-- `LatencyStatistics._trimmed_mean` (proxy_updater.py:463-489): for a
    positive trim fraction, drop `int(n * ratio)` elements from each end of
    the sorted list; fall back to the median when that would drop everything. -/
def _trimmed_mean (data : List ℚ) ( trim_ratio : ℚ) : Option ℚ :=
  if data.isEmpty then none
  else if trim_ratio ≤ 0 then some (listMean data)
  else
    let sorted_data := pySort data
    let n := sorted_data.length
    let trim_count := pyInt ((n : ℚ) * trim_ratio)
    if (n : ℤ) ≤ 2 * trim_count then some (pyMedian data)
    else
      let trimmed_data := (sorted_data.take (n - trim_count.toNat)).drop trim_count.toNat
      if trimmed_data.isEmpty then none else some (listMean trimmed_data)

/-- Python `min(latencies)` on a non-empty list (callers guard emptiness). -/
def pyMin (l : List ℚ) : ℚ :=
  match l with
  | [] => 0
  | x :: xs => xs.foldl min x

/-- Python `max(latencies)` on a non-empty list (callers guard emptiness). -/
def pyMax (l : List ℚ) : ℚ :=
  match l with
  | [] => 0
  | x :: xs => xs.foldl max x

/-- Exact sample variance; `statistics.stdev l` is its square root, modelled
    as `sqrtF (sampleVariance l)` for an abstract `sqrtF`. -/
def sampleVariance (l : List ℚ) : ℚ :=
  (l.map (fun x => (x - listMean l) ^ 2)).sum / ((l.length : ℚ) - 1)

/-- Output shape of `LatencyStatistics.calculate_basic_stats`
    (proxy_updater.py:203-249): every key is always present and holds `None`
    exactly when the sample list is empty. -/
structure BasicStats where
  mean_latency_ms : Option ℚ
  median_latency_ms : Option ℚ
  min_latency_ms : Option ℚ
  max_latency_ms : Option ℚ
  p25_latency_ms : Option ℚ
  p75_latency_ms : Option ℚ
  p95_latency_ms : Option ℚ
  p99_latency_ms : Option ℚ
  deriving DecidableEq

/-- `LatencyStatistics.calculate_basic_stats` (proxy_updater.py:203-249). -/
def calculate_basic_stats (latencies : List ℚ) : BasicStats :=
  if latencies.isEmpty then ⟨none, none, none, none, none, none, none, none⟩
  else
    let sorted_latencies := pySort latencies
    { mean_latency_ms := some (listMean latencies)
      median_latency_ms := some (pyMedian latencies)
      min_latency_ms := some (pyMin latencies)
      max_latency_ms := some (pyMax latencies)
      p25_latency_ms := _percentile sorted_latencies 25
      p75_latency_ms := _percentile sorted_latencies 75
      p95_latency_ms := _percentile sorted_latencies 95
      p99_latency_ms := _percentile sorted_latencies 99 }

/-- Output shape of `LatencyStatistics.calculate_variability_stats`
    (proxy_updater.py:251-295): all `None` when fewer than 2 samples. -/
structure VariabilityStats where
  std_dev_ms : Option ℚ
  coefficient_variation : Option ℚ
  iqr_ms : Option ℚ
  robust_std_dev_ms : Option ℚ
  mad_ms : Option ℚ
  deriving DecidableEq

/-- `LatencyStatistics.calculate_variability_stats` (proxy_updater.py:251-295).
    `sqrtF` abstracts the square root inside `statistics.stdev`. -/
def calculate_variability_stats (sqrtF : ℚ → ℚ) (latencies : List ℚ) :
    VariabilityStats :=
  if latencies.length < 2 then ⟨none, none, none, none, none⟩
  else
    let mean_latency := listMean latencies
    let std_dev := sqrtF (sampleVariance latencies)
    let cv := if 0 < mean_latency then some (std_dev / mean_latency) else none
    let sorted_latencies := pySort latencies
    let iqr :=
      match _percentile sorted_latencies 25, _percentile sorted_latencies 75 with
      | some p25, some p75 => some (p75 - p25)
      | _, _ => none
    let median_latency := pyMedian latencies
    let mad := pyMedian (latencies.map (fun x => |x - median_latency|))
    { std_dev_ms := some std_dev
      coefficient_variation := cv
      iqr_ms := iqr
      robust_std_dev_ms := some (mad * (14826 / 10000))
      mad_ms := some mad }

/-- Output shape of `LatencyStatistics.calculate_robustness_stats`
    (proxy_updater.py:297-352). -/
structure RobustnessStats where
  consistency_score : Option ℚ
  stability_index : Option ℚ
  outlier_ratio : Option ℚ
  trimmed_mean_ms : Option ℚ
  deriving DecidableEq

/-- `LatencyStatistics.calculate_robustness_stats` (proxy_updater.py:297-352). -/
def calculate_robustness_stats (sqrtF : ℚ → ℚ) (latencies : List ℚ) :
    RobustnessStats :=
  if latencies.isEmpty then ⟨none, none, none, none⟩
  else
    let mean_latency := listMean latencies
    let consistency_score : ℚ :=
      if 2 ≤ latencies.length ∧ 0 < mean_latency then
        let cv := sqrtF (sampleVariance latencies) / mean_latency
        if 0 ≤ cv then 1 / (1 + cv) else 0
      else 1
    let sorted_latencies := pySort latencies
    let p25o := _percentile sorted_latencies 25
    let p75o := _percentile sorted_latencies 75
    let stability_index : ℚ :=
      match p25o, p75o with
      | some p25, some p75 =>
        if 0 < mean_latency then 1 / (1 + (p75 - p25) / mean_latency) else 1
      | _, _ => 1
    let outlier_count : ℕ :=
      match p25o, p75o with
      | some p25, some p75 =>
        let iqr := p75 - p25
        latencies.countP fun x =>
          decide (x < p25 - 3 / 2 * iqr) || decide (p75 + 3 / 2 * iqr < x)
      | _, _ => 0
    { consistency_score := some consistency_score
      stability_index := some stability_index
      outlier_ratio := some ((outlier_count : ℚ) / (latencies.length : ℚ))
      trimmed_mean_ms := _trimmed_mean latencies (1 / 10) }

/-- Output shape of `LatencyStatistics.calculate_api_performance_stats`
    (proxy_updater.py:354-430); `availability_stability` is always the given
    success rate, the other keys are `None` for an empty sample list. -/
structure ApiPerformanceStats where
  spike_rate : Option ℚ
  timeout_risk_score : Option ℚ
  availability_stability : ℚ
  qos_score : Option ℚ
  sustained_performance_score : Option ℚ
  deriving DecidableEq

/-- `LatencyStatistics.calculate_api_performance_stats`
    (proxy_updater.py:354-430). -/
def calculate_api_performance_stats (sqrtF : ℚ → ℚ) (latencies : List ℚ)
    (success_rate spike_threshold_ms timeout_threshold_ms : ℚ) :
    ApiPerformanceStats :=
  if latencies.isEmpty then ⟨none, none, success_rate, none, none⟩
  else
    let spike_rate :=
      ((latencies.countP fun x => decide (spike_threshold_ms < x)) : ℚ) /
        (latencies.length : ℚ)
    let timeout_risk_score : ℚ :=
      match _percentile (pySort latencies) 95 with
      | some p95 => min 1 (p95 / timeout_threshold_ms)
      | none => 0
    let mean_latency := listMean latencies
    let latency_score : ℚ := max 0 (1 - mean_latency / 5000)
    let stability_score : ℚ :=
      if 2 ≤ latencies.length then
        let cv :=
          if 0 < mean_latency then sqrtF (sampleVariance latencies) / mean_latency
          else 0
        1 / (1 + cv)
      else 1
    { spike_rate := some spike_rate
      timeout_risk_score := some timeout_risk_score
      availability_stability := success_rate
      qos_score := some (latency_score * (4 / 10) + stability_score * (35 / 100) +
        success_rate * (25 / 100))
      sustained_performance_score := some ((1 - spike_rate) * (3 / 10) +
        (1 - timeout_risk_score) * (3 / 10) + stability_score * (4 / 10)) }

/-- The statistics bundle produced by
    `EnhancedLatencyTester._calculate_enhanced_stats` (proxy_updater.py:877-913). -/
structure EnhancedStats where
  basic_stats : BasicStats
  variability_stats : VariabilityStats
  robustness_stats : RobustnessStats
  api_performance : ApiPerformanceStats
  success_rate : ℚ
  total_requests : ℕ
  successful_requests : ℕ
  deriving DecidableEq

/-- `EnhancedLatencyTester._calculate_enhanced_stats` (proxy_updater.py:877-913);
    `spike_threshold_ms` and `timeout_s` come from the test configuration. -/
def _calculate_enhanced_stats (sqrtF : ℚ → ℚ) (spike_threshold_ms timeout_s : ℚ)
    (latencies : List ℚ) (working_tests total_tests : ℕ) : EnhancedStats :=
  let success_rate := if 0 < total_tests then (working_tests : ℚ) / (total_tests : ℚ) else 0
  { basic_stats := calculate_basic_stats latencies
    variability_stats := calculate_variability_stats sqrtF latencies
    robustness_stats := calculate_robustness_stats sqrtF latencies
    api_performance := calculate_api_performance_stats sqrtF latencies success_rate
      spike_threshold_ms (timeout_s * 1000)
    success_rate := success_rate
    total_requests := total_tests
    successful_requests := working_tests }

/-- Evaluation of a possibly-`None` Python number inside arithmetic: the stats
    dicts always carry their keys, so `dict.get(key, default)` returns the
    stored value even when it is `None`, and `None` then reaches the arithmetic
    and raises `TypeError` (modelled as `Except.error ()`). -/
def pyNum (x : Option ℚ) : Except Unit ℚ :=
  match x with
  | some v => .ok v
  | none => .error ()

/-- Scoring weights of `ProxyEvaluator` (proxy_updater.py:499-513). -/
structure Weights where
  performance : ℚ
  stability : ℚ
  availability : ℚ
  deriving DecidableEq

/-- `ProxyEvaluator.calculate_performance_score` (proxy_updater.py:534-561).
    The `!= inf` guards never fire because the keys are present; a `None`
    value raises `TypeError` in `1 - None / c`. -/
def calculate_performance_score (basic_stats : BasicStats)
    (variability_stats : VariabilityStats) : Except Unit ℚ := do
  let mean_latency ← pyNum basic_stats.mean_latency_ms
  let mean_score := max 0 (1 - mean_latency / 5000)
  let p95_latency ← pyNum basic_stats.p95_latency_ms
  let p95_score := max 0 (1 - p95_latency / 8000)
  let median_latency ← pyNum basic_stats.median_latency_ms
  let median_score := max 0 (1 - median_latency / 4000)
  .ok (min 1 (max 0 (mean_score * (5 / 10) + p95_score * (3 / 10) +
    median_score * (2 / 10))))

/-- `ProxyEvaluator.calculate_stability_score` (proxy_updater.py:563-594). -/
def calculate_stability_score (variability_stats : VariabilityStats)
    (robustness_stats : RobustnessStats) : Except Unit ℚ := do
  let cv ← pyNum variability_stats.coefficient_variation
  let cv_score := 1 / (1 + cv)
  let consistency := (RobustnessStats.consistency_score robustness_stats).getD 0
  let o ← pyNum (RobustnessStats.outlier_ratio robustness_stats)
  let outlier_score := 1 - o
  .ok (min 1 (max 0 (cv_score * (4 / 10) + consistency * (35 / 100) +
    outlier_score * (25 / 100))))

/-- `ProxyEvaluator.calculate_availability_score` (proxy_updater.py:596-628). -/
def calculate_availability_score (success_rate : ℚ)
    (api_performance_stats : ApiPerformanceStats) : Except Unit ℚ := do
  let success_score := success_rate
  let connection_stability := api_performance_stats.availability_stability
  let tr ← pyNum api_performance_stats.timeout_risk_score
  let timeout_score := 1 - tr
  .ok (min 1 (max 0 (success_score * (6 / 10) + connection_stability * (25 / 100) +
    timeout_score * (15 / 100))))

/-- `ProxyEvaluator.calculate_composite_score` (proxy_updater.py:630-658). -/
def calculate_composite_score (w : Weights) (stats : EnhancedStats) :
    Except Unit ℚ := do
  let performance_score ← calculate_performance_score stats.basic_stats
    stats.variability_stats
  let stability_score ← calculate_stability_score stats.variability_stats
    stats.robustness_stats
  let availability_score ← calculate_availability_score stats.success_rate
    stats.api_performance
  .ok (min 1 (max 0 (performance_score * w.performance +
    stability_score * w.stability + availability_score * w.availability)))

/-- `ProxyEvaluator.calculate_qos_score` (proxy_updater.py:660-677): returns
    the precomputed QoS value when present, otherwise the composite score. -/
def calculate_qos_score (w : Weights) (stats : EnhancedStats) : Except Unit ℚ :=
  match ApiPerformanceStats.qos_score stats.api_performance with
  | some q => .ok q
  | none => calculate_composite_score w stats

/-- The `error` field of a probe result (proxy_updater.py:1274-1326). -/
inductive ErrKind where
  | httpStatus (status : ℤ)
  | timeout
  | proxyError
  | connectionError
  | other (msg : String)
  deriving DecidableEq

/-- One probe outcome dict as built by `test_proxy_connectivity`
    (proxy_updater.py:1224-1326); the `test_url` key is omitted as inert. -/
structure ProbeResult where
  is_working : Bool
  latency_ms : Option ℚ
  status_code : Option ℤ
  error : Option ErrKind
  deriving DecidableEq

/-- What the single HTTP request inside `test_proxy_connectivity` did: either
    a response arrived (with status code and an elapsed time that Python turns
    into `None` when falsy) or one of the caught exception classes fired. -/
inductive HttpOutcome where
  | resp (status : ℤ) (elapsed_ms : Option ℚ)
  | timeout
  | proxyError
  | connectionError
  | otherExc (msg : String)
  deriving DecidableEq

/-- `test_proxy_connectivity` (proxy_updater.py:1224-1326) as a function of the
    request outcome: the whole body sits inside `try`, so every failure mode is
    converted to a result dict with `is_working=False` and an `error` value. -/
def test_proxy_connectivity (o : HttpOutcome) : ProbeResult :=
  match o with
  | .resp status elapsed_ms =>
    if 200 ≤ status ∧ status < 400 ∧ elapsed_ms.isSome then
      { is_working := true, latency_ms := elapsed_ms, status_code := some status,
        error := none }
    else
      { is_working := false, latency_ms := elapsed_ms, status_code := some status,
        error := some (.httpStatus status) }
  | .timeout =>
    { is_working := false, latency_ms := none, status_code := none,
      error := some .timeout }
  | .proxyError =>
    { is_working := false, latency_ms := none, status_code := none,
      error := some .proxyError }
  | .connectionError =>
    { is_working := false, latency_ms := none, status_code := none,
      error := some .connectionError }
  | .otherExc m =>
    { is_working := false, latency_ms := none, status_code := none,
      error := some (.other m) }

/-- `ErrorHandler.should_use_fallback_strategy` (proxy_updater.py:161-180). -/
def should_use_fallback_strategy (successful_samples total_samples : ℕ) : Bool :=
  if total_samples = 0 then true
  else
    decide (successful_samples < 3) ||
    decide ((successful_samples : ℚ) / (total_samples : ℚ) < 3 / 10)

/-- The per-candidate result dict built by `EnhancedLatencyTester`
    (proxy_updater.py:846-862, 960-973, 1009-1023).  String fields (`proxy`,
    `user`) and `test_details` are inert and omitted.  The failed-result dict
    has no `is_fallback` key; `dict.get` on it is then falsy, so a
    missing key is modelled as `is_fallback := false`. -/
structure ProxyRecord where
  is_working : Bool
  avg_latency_ms : Option ℚ
  min_latency_ms : Option ℚ
  max_latency_ms : Option ℚ
  success_rate : ℚ
  test_count : ℕ
  working_tests : ℕ
  enhanced_stats : Option EnhancedStats
  composite_score : ℚ
  qos_score : ℚ
  is_fallback : Bool
  deriving DecidableEq

/-- The latencies collected by the sampling loops (proxy_updater.py:813-821,
    942-950): one entry per probe with `is_working` and a non-`None` latency. -/
def collectLatencies (results : List ProbeResult) : List ℚ :=
  results.filterMap fun r => if r.is_working then r.latency_ms else none

/-- Configuration values reaching the statistics layer
    (proxy_updater.py:74, 87, 898-899). -/
structure TestConfig where
  latency_spike_threshold_ms : ℚ
  timeout : ℚ
  deriving DecidableEq

/-- `EnhancedLatencyTester._create_failed_result` (proxy_updater.py:986-1023). -/
def _create_failed_result (total_tests : ℕ) : ProxyRecord :=
  { is_working := false
    avg_latency_ms := none
    min_latency_ms := none
    max_latency_ms := none
    success_rate := 0
    test_count := total_tests
    working_tests := 0
    enhanced_stats := none
    composite_score := 0
    qos_score := 0
    is_fallback := false }

/-- `EnhancedLatencyTester._fallback_test` (proxy_updater.py:915-984) as a
    function of the probe outcomes of the fallback pass (2 fallback URLs × 3
    samples in the source; the list holds them in loop order). -/
def _fallback_test (sqrtF : ℚ → ℚ) (cfg : TestConfig) (w : Weights)
    (fallback_results : List ProbeResult) : Except Unit ProxyRecord :=
  let lats := collectLatencies fallback_results
  let working_tests := lats.length
  let total_fallback_tests := fallback_results.length
  if working_tests = 0 then .ok (_create_failed_result total_fallback_tests)
  else do
    let enhanced_stats := _calculate_enhanced_stats sqrtF
      cfg.latency_spike_threshold_ms cfg.timeout lats working_tests
      total_fallback_tests
    let c ← calculate_composite_score w enhanced_stats
    let q ← calculate_qos_score w enhanced_stats
    .ok { is_working := true
          avg_latency_ms := BasicStats.mean_latency_ms enhanced_stats.basic_stats
          min_latency_ms := BasicStats.min_latency_ms enhanced_stats.basic_stats
          max_latency_ms := BasicStats.max_latency_ms enhanced_stats.basic_stats
          success_rate := enhanced_stats.success_rate
          test_count := total_fallback_tests
          working_tests := working_tests
          enhanced_stats := some enhanced_stats
          composite_score := c
          qos_score := q
          is_fallback := true }

/-- The tail of `measure_proxy_latency_enhanced` after the fallback check
    (proxy_updater.py:838-875): the final record of a primary pass. -/
def primary_pass_result (sqrtF : ℚ → ℚ) (cfg : TestConfig) (w : Weights)
    (primary_results : List ProbeResult) : Except Unit ProxyRecord :=
  let all_results := collectLatencies primary_results
  let working_tests := all_results.length
  let total_tests := primary_results.length
  if working_tests = 0 then .ok (_create_failed_result total_tests)
  else do
    let enhanced_stats := _calculate_enhanced_stats sqrtF
      cfg.latency_spike_threshold_ms cfg.timeout all_results working_tests
      total_tests
    let c ← calculate_composite_score w enhanced_stats
    let q ← calculate_qos_score w enhanced_stats
    .ok { is_working := true
          avg_latency_ms := BasicStats.mean_latency_ms enhanced_stats.basic_stats
          min_latency_ms := BasicStats.min_latency_ms enhanced_stats.basic_stats
          max_latency_ms := BasicStats.max_latency_ms enhanced_stats.basic_stats
          success_rate := enhanced_stats.success_rate
          test_count := total_tests
          working_tests := working_tests
          enhanced_stats := some enhanced_stats
          composite_score := c
          qos_score := q
          is_fallback := false }

/-- `EnhancedLatencyTester.measure_proxy_latency_enhanced`
    (proxy_updater.py:769-875) as a function of the probe outcomes of the
    primary pass (`test_urls × test_count` probes, in loop order) and of the
    fallback pass (consumed only when the fallback strategy triggers). -/
def measure_proxy_latency_enhanced (sqrtF : ℚ → ℚ) (cfg : TestConfig)
    (w : Weights) (primary_results fallback_results : List ProbeResult)
    (use_fallback : Bool) : Except Unit ProxyRecord :=
  let working_tests := (collectLatencies primary_results).length
  let total_tests := primary_results.length
  if use_fallback && should_use_fallback_strategy working_tests total_tests then
    _fallback_test sqrtF cfg w fallback_results
  else primary_pass_result sqrtF cfg w primary_results

/-- The sort key of `ProxyEvaluator.rank_proxies` (proxy_updater.py:699-706):
    the tuple `(is_working, composite_score)`. -/
def rkey (p : ProxyRecord) : Bool × ℚ := (p.is_working, p.composite_score)

/-- Strict "greater" on sort keys: Python tuple comparison, lexicographic with
    `False < True` on booleans. -/
def lexGT (x y : Bool × ℚ) : Bool :=
  (!y.1 && x.1) || (x.1 == y.1 && decide (y.2 < x.2))

/-- `a` must precede `b` strictly under descending order. -/
def keyGTb (a b : ProxyRecord) : Bool := lexGT (rkey a) (rkey b)

/-- Insertion step of the stable descending sort: a new element passes every
    element whose key is strictly smaller and lands after equal keys. -/
def insertDesc (x : ProxyRecord) : List ProxyRecord → List ProxyRecord
  | [] => [x]
  | y :: ys => if keyGTb x y then x :: y :: ys else y :: insertDesc x ys

/-- Model of `sorted(proxy_results, key=..., reverse=True)`
    (proxy_updater.py:699-706).  The CPython sort is stable and a stable sort
    output is uniquely determined by the input order and the key order, so a
    stable insertion sort is an exact model. -/
def sortDesc (l : List ProxyRecord) : List ProxyRecord :=
  l.foldl (fun acc x => insertDesc x acc) []

/-- Sequencing of a fallible step over a list, propagating the first raised
    exception (the model of a Python `for` whose body may raise). -/
def mapE {α β : Type} (f : α → Except Unit β) : List α → Except Unit (List β)
  | [] => .ok []
  | x :: xs => do
    let y ← f x
    let ys ← mapE f xs
    .ok (y :: ys)

/-- The score-assignment loop of `ProxyEvaluator.rank_proxies`
    (proxy_updater.py:689-696). -/
def assign_scores (w : Weights) (p : ProxyRecord) : Except Unit ProxyRecord :=
  match p.enhanced_stats, p.is_working with
  | some st, true => do
    let c ← calculate_composite_score w st
    let q ← calculate_qos_score w st
    .ok { p with composite_score := c, qos_score := q }
  | _, _ => .ok { p with composite_score := 0, qos_score := 0 }

/-- `ProxyEvaluator.rank_proxies` (proxy_updater.py:679-708). -/
def rank_proxies (w : Weights) (proxy_results : List ProxyRecord) :
    Except Unit (List ProxyRecord) := do
  let scored ← mapE (assign_scores w) proxy_results
  .ok (sortDesc scored)

/-- The strict acceptance test of `select_best_proxy` (proxy_updater.py:729-735). -/
def meets_thresholds (min_composite_score min_qos_score : ℚ) (p : ProxyRecord) :
    Bool :=
  p.is_working && decide (min_composite_score ≤ p.composite_score) &&
    decide (min_qos_score ≤ p.qos_score)

/-- `ProxyEvaluator.select_best_proxy` (proxy_updater.py:710-746). -/
def select_best_proxy (w : Weights) (proxy_results : List ProxyRecord)
    (min_composite_score min_qos_score : ℚ) : Except Unit (Option ProxyRecord) := do
  let ranked ← rank_proxies w proxy_results
  match ranked.find? (meets_thresholds min_composite_score min_qos_score) with
  | some p => .ok (some p)
  | none => .ok (ranked.find? fun p => p.is_working)

/-- The rate/latency filter of `find_best_proxy_by_latency_enhanced`
    (proxy_updater.py:1117-1125). -/
def rate_latency_filter (min_success_rate max_latency_ms : ℚ) (p : ProxyRecord) :
    Bool :=
  p.is_working && decide (min_success_rate ≤ p.success_rate) &&
    (match p.avg_latency_ms with
     | some l => decide (l ≤ max_latency_ms)
     | none => false)

/-- `find_best_proxy_by_latency_enhanced` (proxy_updater.py:1079-1172) as a
    function of the batch test results (the output of `batch_test_proxies`,
    which is network I/O and hence an input here). -/
def find_best_proxy_by_latency_enhanced (w : Weights)
    (test_results : List ProxyRecord)
    (min_success_rate max_latency_ms min_composite_score min_qos_score : ℚ) :
    Except Unit (Option ProxyRecord) :=
  let working_proxies := test_results.filter
    (rate_latency_filter min_success_rate max_latency_ms)
  if working_proxies.isEmpty then .ok none
  else select_best_proxy w working_proxies min_composite_score min_qos_score

/-- The latency sub-score as worded in the spec: `max(0, 1 - x / ceiling)`. -/
def latency_score (x ceiling : ℚ) : ℚ := max 0 (1 - x / ceiling)

theorem length_insertAsc (x : ℚ) (l : List ℚ) :
    (insertAsc x l).length = l.length + 1 := by
  induction l with
  | nil => rfl
  | cons y ys ih =>
    by_cases h : x < y
    · simp [insertAsc, h]
    · simp [insertAsc, h, ih]

theorem length_pySort (l : List ℚ) : (pySort l).length = l.length := by
  suffices h : ∀ (l : List ℚ) (acc : List ℚ),
      (l.foldl (fun acc x => insertAsc x acc) acc).length = acc.length + l.length by
    simpa using h l []
  intro l
  induction l with
  | nil => intro acc; simp
  | cons x xs ih =>
    intro acc
    simp only [List.foldl_cons, ih, length_insertAsc, List.length_cons]
    omega


theorem isEmpty_false_of_ne_nil {α : Type} {l : List α} (h : l ≠ []) :
    l.isEmpty = false := by
  cases l with
  | nil => exact absurd rfl h
  | cons x xs => rfl

theorem foldl_min_of_forall_le (xs : List ℚ) (a : ℚ) (h : ∀ y ∈ xs, a ≤ y) :
    xs.foldl min a = a := by
  induction xs with
  | nil => rfl
  | cons y ys ih =>
    have hay : a ≤ y := h y (by simp)
    simp only [List.foldl_cons, min_eq_left hay]
    exact ih fun z hz => h z (by simp [hz])

theorem sorted_headD_eq_pyMin (L : List ℚ) (hs : L.Sorted (· ≤ ·)) (hne : L ≠ []) :
    L.headD 0 = pyMin L := by
  cases L with
  | nil => exact absurd rfl hne
  | cons x xs =>
    have h := (List.sorted_cons.mp hs).1
    simp only [List.headD, pyMin]
    exact (foldl_min_of_forall_le xs x h).symm

theorem sorted_getLastD_eq_pyMax (L : List ℚ) (hs : L.Sorted (· ≤ ·))
    (hne : L ≠ []) : L.getLastD 0 = pyMax L := by
  induction L with
  | nil => exact absurd rfl hne
  | cons x xs ih =>
    cases xs with
    | nil => rfl
    | cons y ys =>
      have hxy : x ≤ y := (List.sorted_cons.mp hs).1 y (by simp)
      have htail := (List.sorted_cons.mp hs).2
      have h1 : (x :: y :: ys).getLastD 0 = (y :: ys).getLastD 0 := by
        simp [List.getLastD_eq_getLast?, List.getLast?_cons_cons]
      have h2 : pyMax (x :: y :: ys) = pyMax (y :: ys) := by
        simp only [pyMax, List.foldl_cons, max_eq_right hxy]
      rw [h1, h2]
      exact ih htail (by simp)

/-- C5: on a non-empty sorted list, `_percentile` returns the minimum for
    `q ≤ 0`, the maximum for `q ≥ 100`, and otherwise interpolates linearly
    between the entries at the floor and the ceiling of `(n-1)·q/100`. -/
theorem percentile_min_max_interpolation (L : List ℚ) (q : ℚ) (hne : L ≠ [])
    (hs : L.Sorted (· ≤ ·)) :
    (q ≤ 0 → _percentile L q = some (pyMin L)) ∧
    (100 ≤ q → _percentile L q = some (pyMax L)) ∧
    (0 < q → q < 100 →
      _percentile L q =
        some (L.getD (⌊((L.length : ℚ) - 1) * q / 100⌋).toNat 0 *
            (1 - (((L.length : ℚ) - 1) * q / 100 - ⌊((L.length : ℚ) - 1) * q / 100⌋)) +
          L.getD (⌈((L.length : ℚ) - 1) * q / 100⌉).toNat 0 *
            (((L.length : ℚ) - 1) * q / 100 - ⌊((L.length : ℚ) - 1) * q / 100⌋))) := by
  have hE : L.isEmpty = false := isEmpty_false_of_ne_nil hne
  refine ⟨?_, ?_, ?_⟩
  · intro h
    simp only [_percentile, hE, Bool.false_eq_true, if_false, if_pos h]
    exact congrArg some (sorted_headD_eq_pyMin L hs hne)
  · intro h
    have h0 : ¬ q ≤ 0 := by linarith
    simp only [_percentile, hE, Bool.false_eq_true, if_false, if_neg h0, if_pos h]
    exact congrArg some (sorted_getLastD_eq_pyMax L hs hne)
  · intro h1 h2
    have h0 : ¬ q ≤ 0 := by linarith
    have h100 : ¬ 100 ≤ q := by linarith
    simp only [_percentile, hE, Bool.false_eq_true, if_false, if_neg h0, if_neg h100]
    set i : ℚ := ((L.length : ℚ) - 1) * q / 100 with hi
    by_cases hlu : (⌊i⌋ : ℤ) = ⌈i⌉
    · rw [if_pos hlu]
      have hif : i = (⌊i⌋ : ℚ) := by
        have hceil := Int.le_ceil i
        rw [← hlu] at hceil
        exact le_antisymm (by exact_mod_cast hceil) (Int.floor_le i)
      have hw : i - (⌊i⌋ : ℚ) = 0 := by rw [← hif]; ring
      rw [hw, ← hlu]
      ring_nf
    · rw [if_neg hlu]

/-- Evaluated instance of `percentile_min_max_interpolation`. -/
theorem percentile_min_max_interpolation_witness :
    _percentile [1, 2, 4] 25 = some (3 / 2) ∧
    _percentile [1, 2, 4] 0 = some (pyMin [1, 2, 4]) ∧
    _percentile [1, 2, 4] 100 = some (pyMax [1, 2, 4]) := by
  refine ⟨?_, ?_, ?_⟩
  · have h := (percentile_min_max_interpolation [1, 2, 4] 25 (by decide)
      (by decide)).2.2 (by norm_num) (by norm_num)
    rw [h]
    norm_num [Int.floor_eq_iff, Int.ceil_eq_iff]
    rw [show (⌈(1 / 2 : ℚ)⌉ : ℤ) = 1 by norm_num [Int.ceil_eq_iff]]
    norm_num
  · exact (percentile_min_max_interpolation [1, 2, 4] 0 (by decide)
      (by decide)).1 le_rfl
  · exact (percentile_min_max_interpolation [1, 2, 4] 100 (by decide)
      (by decide)).2.1 le_rfl

theorem pyInt_nonpos {q : ℚ} (h : q ≤ 0) : pyInt q ≤ 0 := by
  unfold pyInt
  split
  · have hq : q = 0 := le_antisymm h (by assumption)
    simp [hq]
  · exact Int.ceil_le.mpr (by exact_mod_cast h)

/-- C6: `_trimmed_mean` with trim fraction 0 is exactly the arithmetic mean,
    and whenever the trim count per side reaches half the list (the source
    guard `trim_count * 2 >= n`, i.e. trimming would remove at least half of
    the samples from each end and hence everything) it is exactly the median. -/
theorem trimmed_mean_zero_and_median :
    (∀ L : List ℚ, L ≠ [] → _trimmed_mean L 0 = some (listMean L)) ∧
    (∀ (L : List ℚ) (r : ℚ), L ≠ [] →
      (L.length : ℤ) ≤ 2 * pyInt ((L.length : ℚ) * r) →
      _trimmed_mean L r = some (pyMedian L)) := by
  constructor
  · intro L h
    simp [_trimmed_mean, isEmpty_false_of_ne_nil h]
  · intro L r hne hcut
    have hE : L.isEmpty = false := isEmpty_false_of_ne_nil hne
    have hlen : 1 ≤ L.length := List.length_pos.mpr hne
    have hr : ¬ r ≤ 0 := by
      intro hr0
      have h1 : ((L.length : ℚ) * r) ≤ 0 :=
        mul_nonpos_iff.mpr (Or.inl ⟨by positivity, hr0⟩)
      have h2 := pyInt_nonpos h1
      omega
    simp only [_trimmed_mean, hE, Bool.false_eq_true, if_false, if_neg hr,
      length_pySort, if_pos hcut]

/-- Evaluated instance of `trimmed_mean_zero_and_median`. -/
theorem trimmed_mean_zero_and_median_witness :
    _trimmed_mean [1, 2, 3] 0 = some (listMean [1, 2, 3]) ∧
    _trimmed_mean [1, 2] (1 / 2) = some (pyMedian [1, 2]) := by
  constructor
  · exact trimmed_mean_zero_and_median.1 [1, 2, 3] (by decide)
  · exact trimmed_mean_zero_and_median.2 [1, 2] (1 / 2) (by decide)
      (by norm_num [pyInt])

/-- C4: the probe classifies `working=true` exactly when a response arrived
    with status in `[200, 400)` and a latency value was captured; every other
    outcome (bad status, missing latency, any caught exception) yields a
    structured result with `working=false` and an error kind.  The function is
    total on `HttpOutcome`, which models that no exception escapes the
    `try`/`except` boundary of the source. -/
theorem probe_working_iff_and_structured_failure :
    (∀ (status : ℤ) (elapsed_ms : Option ℚ),
      (test_proxy_connectivity (.resp status elapsed_ms)).is_working = true ↔
        200 ≤ status ∧ status < 400 ∧ elapsed_ms.isSome = true) ∧
    (∀ o : HttpOutcome, (test_proxy_connectivity o).is_working = true →
      ((test_proxy_connectivity o).latency_ms).isSome = true) ∧
    (∀ o : HttpOutcome, (test_proxy_connectivity o).is_working = false →
      ((test_proxy_connectivity o).error).isSome = true) ∧
    (∀ o : HttpOutcome,
      (o = .timeout ∨ o = .proxyError ∨ o = .connectionError ∨
        ∃ m, o = .otherExc m) →
      (test_proxy_connectivity o).is_working = false) := by
  refine ⟨?_, ?_, ?_, ?_⟩
  · intro status elapsed_ms
    constructor
    · intro hw
      simp only [test_proxy_connectivity] at hw
      split at hw
      · assumption
      · exact absurd hw (by simp)
    · intro hc
      simp [test_proxy_connectivity, hc.1, hc.2.1, hc.2.2]
  · intro o hw
    cases o with
    | resp status elapsed_ms =>
      by_cases hc : 200 ≤ status ∧ status < 400 ∧ elapsed_ms.isSome = true
      · simp only [test_proxy_connectivity, if_pos hc]
        exact hc.2.2
      · exact absurd hw (by simp [test_proxy_connectivity, if_neg hc])
    | timeout => exact absurd hw (by simp [test_proxy_connectivity])
    | proxyError => exact absurd hw (by simp [test_proxy_connectivity])
    | connectionError => exact absurd hw (by simp [test_proxy_connectivity])
    | otherExc m => exact absurd hw (by simp [test_proxy_connectivity])
  · intro o hw
    cases o with
    | resp status elapsed_ms =>
      by_cases hc : 200 ≤ status ∧ status < 400 ∧ elapsed_ms.isSome = true
      · exact absurd hw (by simp [test_proxy_connectivity, if_pos hc])
      · simp [test_proxy_connectivity, if_neg hc]
    | timeout => rfl
    | proxyError => rfl
    | connectionError => rfl
    | otherExc m => rfl
  · intro o h
    rcases h with h | h | h | ⟨m, h⟩ <;> subst h <;> rfl

/-- Evaluated instance of `probe_working_iff_and_structured_failure`. -/
theorem probe_working_iff_witness :
    ((test_proxy_connectivity (.resp 204 (some 100))).latency_ms).isSome = true ∧
    ((test_proxy_connectivity .timeout).error).isSome = true ∧
    (test_proxy_connectivity (.resp 500 (some 100))).is_working = false :=
  ⟨probe_working_iff_and_structured_failure.2.1 (.resp 204 (some 100)) (by decide),
   probe_working_iff_and_structured_failure.2.2.1 .timeout (by decide),
   by decide⟩

/-- C2: with the default `use_fallback=True`, a non-empty primary pass of `n`
    probes with `s` successful samples hands over to the fallback test exactly
    when `s < 3` or `s/n < 0.3`; otherwise the primary pass result is final. -/
theorem fallback_triggers_iff (sqrtF : ℚ → ℚ) (cfg : TestConfig) (w : Weights)
    (primary_results fallback_results : List ProbeResult)
    (hne : primary_results ≠ []) :
    measure_proxy_latency_enhanced sqrtF cfg w primary_results fallback_results
        true =
      if (collectLatencies primary_results).length < 3 ∨
          ((collectLatencies primary_results).length : ℚ) /
            (primary_results.length : ℚ) < 3 / 10 then
        _fallback_test sqrtF cfg w fallback_results
      else primary_pass_result sqrtF cfg w primary_results := by
  have hn : ¬ primary_results.length = 0 := fun h => hne (List.length_eq_zero.mp h)
  have hbool : (true && should_use_fallback_strategy
      (collectLatencies primary_results).length primary_results.length) = true ↔
      ((collectLatencies primary_results).length < 3 ∨
        ((collectLatencies primary_results).length : ℚ) /
          (primary_results.length : ℚ) < 3 / 10) := by
    simp only [should_use_fallback_strategy, Bool.true_and, if_neg hn,
      Bool.or_eq_true, decide_eq_true_eq]
  unfold measure_proxy_latency_enhanced
  by_cases h : (collectLatencies primary_results).length < 3 ∨
      ((collectLatencies primary_results).length : ℚ) /
        (primary_results.length : ℚ) < 3 / 10
  · rw [if_pos h, if_pos (hbool.mpr h)]
  · rw [if_neg h, if_neg (fun hc => h (hbool.mp hc))]

/-- Evaluated instance of `fallback_triggers_iff`. -/
theorem fallback_triggers_iff_witness :
    measure_proxy_latency_enhanced (fun _ => 0) ⟨1000, 10⟩
        ⟨4 / 10, 35 / 100, 25 / 100⟩ [test_proxy_connectivity .timeout] [] true =
      if (collectLatencies [test_proxy_connectivity .timeout]).length < 3 ∨
          ((collectLatencies [test_proxy_connectivity .timeout]).length : ℚ) /
            (([test_proxy_connectivity .timeout] : List ProbeResult).length : ℚ) <
            3 / 10 then
        _fallback_test (fun _ => 0) ⟨1000, 10⟩ ⟨4 / 10, 35 / 100, 25 / 100⟩ []
      else
        primary_pass_result (fun _ => 0) ⟨1000, 10⟩ ⟨4 / 10, 35 / 100, 25 / 100⟩
          [test_proxy_connectivity .timeout] :=
  fallback_triggers_iff _ _ _ _ _ (by decide)

/-- C8 counterexample: when every primary probe and every fallback probe
    fails, the final record is `_create_failed_result`, whose `is_fallback`
    is falsy (the key is absent), contradicting the claimed `is_fallback=true`. -/
theorem all_fail_fallback_counterexample :
    measure_proxy_latency_enhanced (fun _ => 0) ⟨1000, 10⟩
        ⟨4 / 10, 35 / 100, 25 / 100⟩
        (List.replicate 5 (test_proxy_connectivity .timeout))
        (List.replicate 6 (test_proxy_connectivity .timeout)) true =
      .ok (_create_failed_result 6) ∧
    (_create_failed_result 6).is_fallback = false := ⟨rfl, rfl⟩

/-- C8 amended: if all primary probes fail (which triggers the fallback pass)
    and all fallback probes fail too, the final record is the failed-result
    record: `is_working=false`, `composite_score=0`, `qos_score=0`, and
    `is_fallback` absent/falsy (not `true` as claimed). -/
theorem all_fail_fallback_yields_failed_record (sqrtF : ℚ → ℚ)
    (cfg : TestConfig) (w : Weights)
    (primary_results fallback_results : List ProbeResult)
    (hp : collectLatencies primary_results = [])
    (hf : collectLatencies fallback_results = []) :
    measure_proxy_latency_enhanced sqrtF cfg w primary_results fallback_results
        true =
      .ok (_create_failed_result fallback_results.length) ∧
    (_create_failed_result fallback_results.length).is_working = false ∧
    (_create_failed_result fallback_results.length).composite_score = 0 ∧
    (_create_failed_result fallback_results.length).qos_score = 0 ∧
    (_create_failed_result fallback_results.length).is_fallback = false := by
  refine ⟨?_, rfl, rfl, rfl, rfl⟩
  have hs : should_use_fallback_strategy 0 primary_results.length = true := by
    unfold should_use_fallback_strategy
    split
    · rfl
    · simp
  simp only [measure_proxy_latency_enhanced, hp, List.length_nil, hs,
    Bool.and_self, if_pos]
  simp only [_fallback_test, hf, List.length_nil, if_pos]

/-- Evaluated instance of `all_fail_fallback_yields_failed_record`. -/
theorem all_fail_fallback_yields_failed_record_witness :
    measure_proxy_latency_enhanced (fun _ => 0) ⟨1000, 10⟩
        ⟨4 / 10, 35 / 100, 25 / 100⟩
        (List.replicate 5 (test_proxy_connectivity .connectionError))
        (List.replicate 6 (test_proxy_connectivity .connectionError)) true =
      .ok (_create_failed_result
        (List.replicate 6 (test_proxy_connectivity .connectionError)).length) ∧
    (_create_failed_result
      (List.replicate 6 (test_proxy_connectivity .connectionError)).length).is_working
        = false ∧
    (_create_failed_result
      (List.replicate 6 (test_proxy_connectivity .connectionError)).length).composite_score
        = 0 ∧
    (_create_failed_result
      (List.replicate 6 (test_proxy_connectivity .connectionError)).length).qos_score
        = 0 ∧
    (_create_failed_result
      (List.replicate 6 (test_proxy_connectivity .connectionError)).length).is_fallback
        = false :=
  all_fail_fallback_yields_failed_record _ _ _ _ _ rfl rfl

theorem pySort_ne_nil {l : List ℚ} (h : l ≠ []) : pySort l ≠ [] := by
  intro hs
  apply h
  have hlen := length_pySort l
  rw [hs] at hlen
  exact List.length_eq_zero.mp hlen.symm

theorem _percentile_isSome {L : List ℚ} (h : L ≠ []) (q : ℚ) :
    (_percentile L q).isSome = true := by
  unfold _percentile
  rw [isEmpty_false_of_ne_nil h]
  simp only [Bool.false_eq_true, if_false]
  split_ifs <;> simp

theorem listMean_pos {l : List ℚ} (hne : l ≠ []) (hl : ∀ x ∈ l, 0 < x) :
    0 < listMean l := by
  unfold listMean
  apply div_pos (List.sum_pos l hl hne)
  exact_mod_cast List.length_pos.mpr hne

theorem clamp01_nonneg (x : ℚ) : 0 ≤ min 1 (max 0 x) :=
  le_min (by norm_num) (le_max_left 0 x)

theorem clamp01_le_one (x : ℚ) : min 1 (max 0 x) ≤ 1 := min_le_left 1 _

theorem performance_score_eq_of_some (b : BasicStats) (vs : VariabilityStats)
    (m p95 med : ℚ) (hm : b.mean_latency_ms = some m)
    (hp : b.p95_latency_ms = some p95) (hmed : b.median_latency_ms = some med) :
    calculate_performance_score b vs =
      .ok (min 1 (max 0 (max 0 (1 - m / 5000) * (5 / 10) +
        max 0 (1 - p95 / 8000) * (3 / 10) + max 0 (1 - med / 4000) * (2 / 10)))) := by
  simp [calculate_performance_score, pyNum, hm, hp, hmed, Bind.bind, Except.bind]

theorem stability_score_eq_of_some (vs : VariabilityStats) (rs : RobustnessStats)
    (cv o : ℚ) (hcv : vs.coefficient_variation = some cv)
    (ho : RobustnessStats.outlier_ratio rs = some o) :
    calculate_stability_score vs rs =
      .ok (min 1 (max 0 (1 / (1 + cv) * (4 / 10) +
        (RobustnessStats.consistency_score rs).getD 0 * (35 / 100) +
        (1 - o) * (25 / 100)))) := by
  simp [calculate_stability_score, pyNum, hcv, ho, Bind.bind, Except.bind]

theorem availability_score_eq_of_some (sr : ℚ) (api : ApiPerformanceStats)
    (tr : ℚ) (ht : ApiPerformanceStats.timeout_risk_score api = some tr) :
    calculate_availability_score sr api =
      .ok (min 1 (max 0 (sr * (6 / 10) +
        ApiPerformanceStats.availability_stability api * (25 / 100) +
        (1 - tr) * (15 / 100)))) := by
  simp [calculate_availability_score, pyNum, ht, Bind.bind, Except.bind]

theorem basic_stats_fields_of_ne_nil {l : List ℚ} (hne : l ≠ []) :
    (calculate_basic_stats l).mean_latency_ms = some (listMean l) ∧
    (calculate_basic_stats l).median_latency_ms = some (pyMedian l) ∧
    (calculate_basic_stats l).p95_latency_ms = _percentile (pySort l) 95 := by
  simp [calculate_basic_stats, isEmpty_false_of_ne_nil hne]

theorem variability_cv_of_two_le {sqrtF : ℚ → ℚ} {l : List ℚ}
    (hlen : 2 ≤ l.length) (hmean : 0 < listMean l) :
    (calculate_variability_stats sqrtF l).coefficient_variation =
      some (sqrtF (sampleVariance l) / listMean l) := by
  simp [calculate_variability_stats, if_neg (not_lt.mpr hlen), hmean]

theorem robustness_fields_of_ne_nil {sqrtF : ℚ → ℚ} {l : List ℚ} (hne : l ≠ []) :
    (RobustnessStats.consistency_score (calculate_robustness_stats sqrtF l)).isSome
        = true ∧
    (RobustnessStats.outlier_ratio (calculate_robustness_stats sqrtF l)).isSome
        = true := by
  constructor <;> simp [calculate_robustness_stats, isEmpty_false_of_ne_nil hne]

theorem api_trisk_isSome_of_ne_nil {sqrtF : ℚ → ℚ} {l : List ℚ} (hne : l ≠ [])
    (sr spike tmo : ℚ) :
    (ApiPerformanceStats.timeout_risk_score
      (calculate_api_performance_stats sqrtF l sr spike tmo)).isSome = true := by
  simp [calculate_api_performance_stats, isEmpty_false_of_ne_nil hne]

theorem api_avail_stab_of_ne_nil {sqrtF : ℚ → ℚ} (l : List ℚ)
    (sr spike tmo : ℚ) :
    ApiPerformanceStats.availability_stability
      (calculate_api_performance_stats sqrtF l sr spike tmo) = sr := by
  unfold calculate_api_performance_stats
  split <;> rfl

theorem api_qos_formula {sqrtF : ℚ → ℚ} {l : List ℚ} (hne : l ≠ [])
    (sr spike tmo : ℚ) :
    ApiPerformanceStats.qos_score
        (calculate_api_performance_stats sqrtF l sr spike tmo) =
      some (max 0 (1 - listMean l / 5000) * (4 / 10) +
        (if 2 ≤ l.length then
          1 / (1 + (if 0 < listMean l then
            sqrtF (sampleVariance l) / listMean l else 0))
         else 1) * (35 / 100) +
        sr * (25 / 100)) := by
  simp [calculate_api_performance_stats, isEmpty_false_of_ne_nil hne]

theorem composite_ok_of_engine_bundle (sqrtF : ℚ → ℚ) (spike tmo : ℚ)
    (w : Weights) (l : List ℚ) (hlen : 2 ≤ l.length) (hl : ∀ x ∈ l, 0 < x)
    (working total : ℕ) :
    ∃ c, calculate_composite_score w
        (_calculate_enhanced_stats sqrtF spike tmo l working total) = .ok c ∧
      0 ≤ c ∧ c ≤ 1 := by
  have hne : l ≠ [] := by
    intro h
    rw [h] at hlen
    simp at hlen
  have hmean : 0 < listMean l := listMean_pos hne hl
  obtain ⟨hm, hmed, hp95⟩ := basic_stats_fields_of_ne_nil hne
  obtain ⟨v95, hv95⟩ :=
    Option.isSome_iff_exists.mp (_percentile_isSome (pySort_ne_nil hne) 95)
  obtain ⟨o, hoeq⟩ :=
    Option.isSome_iff_exists.mp (@robustness_fields_of_ne_nil sqrtF l hne).2
  obtain ⟨tr, htr⟩ := Option.isSome_iff_exists.mp
    (@api_trisk_isSome_of_ne_nil sqrtF l hne
      (if 0 < total then (working : ℚ) / (total : ℚ) else 0) spike (tmo * 1000))
  have hperf := performance_score_eq_of_some (calculate_basic_stats l)
    (calculate_variability_stats sqrtF l) (listMean l) v95 (pyMedian l) hm
    (hp95.trans hv95) hmed
  have hcv := @variability_cv_of_two_le sqrtF l hlen hmean
  have hstab := stability_score_eq_of_some (calculate_variability_stats sqrtF l)
    (calculate_robustness_stats sqrtF l) _ _ hcv hoeq
  have havail := availability_score_eq_of_some
    (if 0 < total then (working : ℚ) / (total : ℚ) else 0)
    (calculate_api_performance_stats sqrtF l
      (if 0 < total then (working : ℚ) / (total : ℚ) else 0) spike (tmo * 1000))
    tr htr
  obtain ⟨P, hperf⟩ : ∃ P, calculate_performance_score (calculate_basic_stats l)
      (calculate_variability_stats sqrtF l) = .ok P := ⟨_, hperf⟩
  obtain ⟨S, hstab⟩ : ∃ S, calculate_stability_score
      (calculate_variability_stats sqrtF l)
      (calculate_robustness_stats sqrtF l) = .ok S := ⟨_, hstab⟩
  obtain ⟨A, havail⟩ : ∃ A, calculate_availability_score
      (if 0 < total then (working : ℚ) / (total : ℚ) else 0)
      (calculate_api_performance_stats sqrtF l
        (if 0 < total then (working : ℚ) / (total : ℚ) else 0) spike
        (tmo * 1000)) = .ok A := ⟨_, havail⟩
  refine ⟨min 1 (max 0 (P * w.performance + S * w.stability + A * w.availability)),
    ?_, clamp01_nonneg _, clamp01_le_one _⟩
  simp only [calculate_composite_score, _calculate_enhanced_stats, hperf, hstab,
    havail, Bind.bind, Except.bind]

theorem qos_ok_of_engine_bundle (sqrtF : ℚ → ℚ) (hsq : ∀ x, 0 ≤ sqrtF x)
    (spike tmo : ℚ) (w : Weights) (l : List ℚ) (hne : l ≠ [])
    (hl : ∀ x ∈ l, 0 < x) (working total : ℕ) (hwt : working ≤ total) :
    ∃ q, calculate_qos_score w
        (_calculate_enhanced_stats sqrtF spike tmo l working total) = .ok q ∧
      0 ≤ q ∧ q ≤ 1 := by
  have hmean : 0 < listMean l := listMean_pos hne hl
  set sr : ℚ := if 0 < total then (working : ℚ) / (total : ℚ) else 0 with hsr
  have hsr0 : 0 ≤ sr := by
    rw [hsr]
    split
    · positivity
    · exact le_refl (0 : ℚ)
  have hsr1 : sr ≤ 1 := by
    rw [hsr]
    split
    · rename_i ht
      rw [div_le_one (by exact_mod_cast ht)]
      exact_mod_cast hwt
    · norm_num
  have hqos := @api_qos_formula sqrtF l hne sr spike (tmo * 1000)
  set ls : ℚ := max 0 (1 - listMean l / 5000) with hls
  have hls0 : 0 ≤ ls := le_max_left _ _
  have hls1 : ls ≤ 1 := by
    apply max_le (by norm_num)
    have h5 : 0 ≤ listMean l / 5000 := by positivity
    linarith
  set ss : ℚ := if 2 ≤ l.length then
      1 / (1 + (if 0 < listMean l then sqrtF (sampleVariance l) / listMean l else 0))
    else 1 with hss
  have hssb : 0 ≤ ss ∧ ss ≤ 1 := by
    rw [hss, if_pos hmean]
    have hcv0 : 0 ≤ sqrtF (sampleVariance l) / listMean l :=
      div_nonneg (hsq _) hmean.le
    split
    · constructor
      · exact div_nonneg (by norm_num) (by linarith)
      · rw [div_le_one (by linarith)]
        linarith
    · norm_num
  refine ⟨ls * (4 / 10) + ss * (35 / 100) + sr * (25 / 100), ?_, ?_, ?_⟩
  · simp only [calculate_qos_score, _calculate_enhanced_stats, ← hsr, hqos,
      ← hls, ← hss]
  · have h1 : 0 ≤ ls * (4 / 10) := by positivity
    have h2 : 0 ≤ ss * (35 / 100) := mul_nonneg hssb.1 (by norm_num)
    have h3 : 0 ≤ sr * (25 / 100) := mul_nonneg hsr0 (by norm_num)
    linarith
  · have h1 : ls * (4 / 10) ≤ 4 / 10 := by nlinarith
    have h2 : ss * (35 / 100) ≤ 35 / 100 := by nlinarith [hssb.1, hssb.2]
    have h3 : sr * (25 / 100) ≤ 25 / 100 := by nlinarith
    linarith

/-- C1: for every engine-built statistics bundle over at least two positive
    samples, the composite score and the QoS score are returned in `[0,1]`,
    and candidate records with no working samples get `composite_score = 0`
    and `qos_score = 0` (both in `_create_failed_result` and in the
    score-assignment loop of `rank_proxies`).  However, on the bundle built
    from an EMPTY latency list both scorers raise `TypeError` — the statistics
    keys are present with value `None`, so the `inf`-default guards are
    bypassed and `None` reaches the arithmetic — instead of returning 0. -/
theorem composite_qos_unit_interval_and_empty_bundle_raises :
    (∀ (sqrtF : ℚ → ℚ) (spike tmo : ℚ) (w : Weights) (working total : ℕ),
      calculate_composite_score w
          (_calculate_enhanced_stats sqrtF spike tmo [] working total) =
        .error () ∧
      calculate_qos_score w
          (_calculate_enhanced_stats sqrtF spike tmo [] working total) =
        .error ()) ∧
    (∀ sqrtF : ℚ → ℚ, (∀ x, 0 ≤ sqrtF x) →
      ∀ (spike tmo : ℚ) (w : Weights) (l : List ℚ), 2 ≤ l.length →
      (∀ x ∈ l, 0 < x) → ∀ working total : ℕ, working ≤ total →
      (∃ c, calculate_composite_score w
          (_calculate_enhanced_stats sqrtF spike tmo l working total) = .ok c ∧
        0 ≤ c ∧ c ≤ 1) ∧
      (∃ q, calculate_qos_score w
          (_calculate_enhanced_stats sqrtF spike tmo l working total) = .ok q ∧
        0 ≤ q ∧ q ≤ 1)) ∧
    (∀ total : ℕ, (_create_failed_result total).composite_score = 0 ∧
      (_create_failed_result total).qos_score = 0) ∧
    (∀ (w : Weights) (p : ProxyRecord),
      p.is_working = false ∨ p.enhanced_stats = none →
      assign_scores w p = .ok { p with composite_score := 0, qos_score := 0 }) := by
  refine ⟨?_, ?_, ?_, ?_⟩
  · intro sqrtF spike tmo w working total
    exact ⟨rfl, rfl⟩
  · intro sqrtF hsq spike tmo w l hlen hl working total hwt
    have hne : l ≠ [] := by
      intro h
      rw [h] at hlen
      simp at hlen
    exact ⟨composite_ok_of_engine_bundle sqrtF spike tmo w l hlen hl working total,
      qos_ok_of_engine_bundle sqrtF hsq spike tmo w l hne hl working total hwt⟩
  · intro total
    exact ⟨rfl, rfl⟩
  · intro w p h
    rcases h with h | h
    · cases hs : p.enhanced_stats with
      | none => simp [assign_scores, h, hs]
      | some st => simp [assign_scores, h, hs]
    · simp [assign_scores, h]

/-- Evaluated instance of `composite_qos_unit_interval_and_empty_bundle_raises`. -/
theorem composite_qos_unit_interval_witness :
    (∃ c, calculate_composite_score ⟨4 / 10, 35 / 100, 25 / 100⟩
        (_calculate_enhanced_stats (fun _ => 0) 1000 10 [100, 200] 2 2) = .ok c ∧
      0 ≤ c ∧ c ≤ 1) ∧
    (∃ q, calculate_qos_score ⟨4 / 10, 35 / 100, 25 / 100⟩
        (_calculate_enhanced_stats (fun _ => 0) 1000 10 [100, 200] 2 2) = .ok q ∧
      0 ≤ q ∧ q ≤ 1) :=
  composite_qos_unit_interval_and_empty_bundle_raises.2.1 (fun _ => 0)
    (fun _ => le_refl 0) 1000 10 ⟨4 / 10, 35 / 100, 25 / 100⟩ [100, 200]
    (by decide) (by decide) 2 2 (le_refl 2)

/-- C9: on defined basic statistics with non-negative values, the performance
    score is exactly the weighted sum
    `0.5·ls(mean,5000) + 0.3·ls(p95,8000) + 0.2·ls(median,4000)` (the clamp is
    the identity there); but on the all-`None` statistics of an empty sample
    list the function raises `TypeError` — the keys are present, so the
    `inf`-default never fires and `1 - None/5000` is evaluated — rather than
    scoring the undefined components as 0. -/
theorem performance_score_formula_and_none_raises :
    (∀ vs : VariabilityStats,
      calculate_performance_score (calculate_basic_stats []) vs = .error ()) ∧
    (∀ (b : BasicStats) (vs : VariabilityStats) (m p95 med : ℚ),
      b.mean_latency_ms = some m → b.p95_latency_ms = some p95 →
      b.median_latency_ms = some med → 0 ≤ m → 0 ≤ p95 → 0 ≤ med →
      calculate_performance_score b vs =
        .ok (latency_score m 5000 * (5 / 10) + latency_score p95 8000 * (3 / 10)
          + latency_score med 4000 * (2 / 10))) := by
  constructor
  · intro vs
    rfl
  · intro b vs m p95 med hm hp hmed h0m h0p h0med
    rw [performance_score_eq_of_some b vs m p95 med hm hp hmed]
    have b1 : max 0 (1 - m / 5000) ≤ 1 := by
      apply max_le (by norm_num)
      have : 0 ≤ m / 5000 := by positivity
      linarith
    have b2 : max 0 (1 - p95 / 8000) ≤ 1 := by
      apply max_le (by norm_num)
      have : 0 ≤ p95 / 8000 := by positivity
      linarith
    have b3 : max 0 (1 - med / 4000) ≤ 1 := by
      apply max_le (by norm_num)
      have : 0 ≤ med / 4000 := by positivity
      linarith
    have a1 : (0 : ℚ) ≤ max 0 (1 - m / 5000) := le_max_left _ _
    have a2 : (0 : ℚ) ≤ max 0 (1 - p95 / 8000) := le_max_left _ _
    have a3 : (0 : ℚ) ≤ max 0 (1 - med / 4000) := le_max_left _ _
    have hS0 : (0 : ℚ) ≤ max 0 (1 - m / 5000) * (5 / 10) +
        max 0 (1 - p95 / 8000) * (3 / 10) + max 0 (1 - med / 4000) * (2 / 10) := by
      nlinarith
    have hS1 : max 0 (1 - m / 5000) * (5 / 10) +
        max 0 (1 - p95 / 8000) * (3 / 10) + max 0 (1 - med / 4000) * (2 / 10) ≤ 1 := by
      nlinarith
    rw [max_eq_right hS0, min_eq_right hS1]
    rfl

/-- Evaluated instance of `performance_score_formula_and_none_raises`. -/
theorem performance_score_formula_witness :
    calculate_performance_score
        ⟨some 1000, some 1000, some 1000, some 1000, some 1000, some 1000,
          some 1000, some 1000⟩ ⟨none, none, none, none, none⟩ =
      .ok (latency_score 1000 5000 * (5 / 10) + latency_score 1000 8000 * (3 / 10)
        + latency_score 1000 4000 * (2 / 10)) :=
  performance_score_formula_and_none_raises.2 _ _ 1000 1000 1000 rfl rfl rfl
    (by norm_num) (by norm_num) (by norm_num)

theorem lexGT_irrefl (x : Bool × ℚ) : lexGT x x = false := by
  rcases x with ⟨b, q⟩
  cases b <;> simp [lexGT]

theorem lexGT_asymm (x y : Bool × ℚ) (h : lexGT x y = true) : lexGT y x = false := by
  rcases x with ⟨xb, xq⟩
  rcases y with ⟨yb, yq⟩
  cases xb <;> cases yb <;> simp_all [lexGT] <;> linarith

theorem lexGT_cut (x y z : Bool × ℚ) (hxy : lexGT x y = true)
    (hzy : lexGT z y = false) : lexGT z x = false := by
  rcases x with ⟨xb, xq⟩
  rcases y with ⟨yb, yq⟩
  rcases z with ⟨zb, zq⟩
  cases xb <;> cases yb <;> cases zb <;> simp_all [lexGT] <;> linarith

theorem keyGTb_irrefl_of_rkey_eq {a b : ProxyRecord} (h : rkey a = rkey b) :
    keyGTb a b = false := by
  unfold keyGTb
  rw [h]
  exact lexGT_irrefl _

theorem keyGTb_asymm {a b : ProxyRecord} (h : keyGTb a b = true) :
    keyGTb b a = false := lexGT_asymm _ _ h

theorem keyGTb_cut {x y z : ProxyRecord} (hxy : keyGTb x y = true)
    (hzy : keyGTb z y = false) : keyGTb z x = false := lexGT_cut _ _ _ hxy hzy

theorem mem_insertDesc {x z : ProxyRecord} {l : List ProxyRecord} :
    z ∈ insertDesc x l ↔ z = x ∨ z ∈ l := by
  induction l with
  | nil => simp [insertDesc]
  | cons y ys ih =>
    unfold insertDesc
    split
    · simp
    · simp only [List.mem_cons, ih]
      tauto

theorem perm_insertDesc (x : ProxyRecord) (l : List ProxyRecord) :
    (insertDesc x l).Perm (x :: l) := by
  induction l with
  | nil => exact List.Perm.refl _
  | cons y ys ih =>
    unfold insertDesc
    split
    · exact List.Perm.refl _
    · exact (ih.cons y).trans (List.Perm.swap x y ys)

theorem perm_sortDesc (l : List ProxyRecord) : (sortDesc l).Perm l := by
  suffices h : ∀ (l acc : List ProxyRecord),
      (l.foldl (fun acc x => insertDesc x acc) acc).Perm (acc ++ l) by
    simpa using h l []
  intro l
  induction l with
  | nil => intro acc; simp
  | cons x xs ih =>
    intro acc
    simp only [List.foldl_cons]
    exact ((ih (insertDesc x acc)).trans
      (((perm_insertDesc x acc).append_right xs).trans List.perm_middle.symm))

theorem pairwise_insertDesc (x : ProxyRecord) (l : List ProxyRecord)
    (h : l.Pairwise fun a b => keyGTb b a = false) :
    (insertDesc x l).Pairwise fun a b => keyGTb b a = false := by
  induction l with
  | nil => simp [insertDesc]
  | cons y ys ih =>
    rw [List.pairwise_cons] at h
    unfold insertDesc
    split
    · rename_i hxy
      rw [List.pairwise_cons]
      refine ⟨?_, List.pairwise_cons.mpr h⟩
      intro z hz
      rcases List.mem_cons.mp hz with rfl | hz
      · exact keyGTb_asymm hxy
      · exact keyGTb_cut hxy (h.1 z hz)
    · rename_i hxy
      rw [List.pairwise_cons]
      refine ⟨?_, ih h.2⟩
      intro z hz
      rcases mem_insertDesc.mp hz with rfl | hz
      · exact Bool.eq_false_iff.mpr hxy
      · exact h.1 z hz

theorem pairwise_sortDesc (l : List ProxyRecord) :
    (sortDesc l).Pairwise fun a b => keyGTb b a = false := by
  suffices h : ∀ (l acc : List ProxyRecord),
      (acc.Pairwise fun a b => keyGTb b a = false) →
      ((l.foldl (fun acc x => insertDesc x acc) acc).Pairwise
        fun a b => keyGTb b a = false) by
    exact h l [] (by simp)
  intro l
  induction l with
  | nil => intro acc hacc; exact hacc
  | cons x xs ih =>
    intro acc hacc
    simp only [List.foldl_cons]
    exact ih (insertDesc x acc) (pairwise_insertDesc x acc hacc)

theorem filter_insertDesc_ne (x : ProxyRecord) (l : List ProxyRecord)
    (k : Bool × ℚ) (hx : rkey x ≠ k) :
    (insertDesc x l).filter (fun p => decide (rkey p = k)) =
      l.filter (fun p => decide (rkey p = k)) := by
  induction l with
  | nil => simp [insertDesc, hx]
  | cons y ys ih =>
    unfold insertDesc
    split
    · simp [List.filter_cons, hx]
    · simp [List.filter_cons, ih]

theorem filter_insertDesc_eq (x : ProxyRecord) (l : List ProxyRecord)
    (k : Bool × ℚ) (hx : rkey x = k)
    (hs : l.Pairwise fun a b => keyGTb b a = false) :
    (insertDesc x l).filter (fun p => decide (rkey p = k)) =
      l.filter (fun p => decide (rkey p = k)) ++ [x] := by
  induction l with
  | nil => simp [insertDesc, hx]
  | cons y ys ih =>
    rw [List.pairwise_cons] at hs
    unfold insertDesc
    split
    · rename_i hxy
      have hy : rkey y ≠ k := by
        intro hk
        have hirr : keyGTb x y = false :=
          keyGTb_irrefl_of_rkey_eq (by rw [hx, hk])
        rw [hirr] at hxy
        exact Bool.false_ne_true hxy
      have hys : ∀ z ∈ ys, rkey z ≠ k := by
        intro z hz hk
        have h1 : keyGTb z y = false := hs.1 z hz
        have h2 : keyGTb z y = keyGTb x y := by
          unfold keyGTb
          rw [hk, ← hx]
        rw [h2, hxy] at h1
        exact absurd h1 (by simp)
      have hfilter : (y :: ys).filter (fun p => decide (rkey p = k)) = [] := by
        rw [List.filter_eq_nil]
        intro z hz
        rcases List.mem_cons.mp hz with rfl | hz
        · simp [hy]
        · simp [hys z hz]
      simp [List.filter_cons, hx, hfilter]
    · rename_i hxy
      by_cases hy : rkey y = k
      · simp [List.filter_cons, hy, ih hs.2]
      · simp [List.filter_cons, hy, ih hs.2]

theorem filter_sortDesc (l : List ProxyRecord) (k : Bool × ℚ) :
    (sortDesc l).filter (fun p => decide (rkey p = k)) =
      l.filter (fun p => decide (rkey p = k)) := by
  suffices h : ∀ (l acc : List ProxyRecord),
      (acc.Pairwise fun a b => keyGTb b a = false) →
      (l.foldl (fun acc x => insertDesc x acc) acc).filter
          (fun p => decide (rkey p = k)) =
        acc.filter (fun p => decide (rkey p = k)) ++
          l.filter (fun p => decide (rkey p = k)) by
    simpa using h l [] (by simp)
  intro l
  induction l with
  | nil => intro acc hacc; simp
  | cons x xs ih =>
    intro acc hacc
    simp only [List.foldl_cons]
    rw [ih (insertDesc x acc) (pairwise_insertDesc x acc hacc)]
    by_cases hx : rkey x = k
    · rw [filter_insertDesc_eq x acc k hx hacc]
      simp [List.filter_cons, hx]
    · rw [filter_insertDesc_ne x acc k hx]
      simp [List.filter_cons, hx]

theorem mapE_mem {f : ProxyRecord → Except Unit ProxyRecord} :
    ∀ {l l' : List ProxyRecord}, mapE f l = .ok l' →
      ∀ p ∈ l', ∃ q ∈ l, f q = .ok p := by
  intro l
  induction l with
  | nil =>
    intro l' h p hp
    simp only [mapE] at h
    injection h with h
    subst h
    simp at hp
  | cons x xs ih =>
    intro l' h p hp
    simp only [mapE] at h
    cases hfx : f x with
    | error e =>
      rw [hfx] at h
      simp [Bind.bind, Except.bind] at h
    | ok y =>
      rw [hfx] at h
      cases hmx : mapE f xs with
      | error e =>
        rw [hmx] at h
        simp [Bind.bind, Except.bind] at h
      | ok ys =>
        rw [hmx] at h
        simp only [Bind.bind, Except.bind] at h
        injection h with h
        subst h
        rcases List.mem_cons.mp hp with rfl | hp
        · exact ⟨x, by simp, hfx⟩
        · obtain ⟨q, hq, hfq⟩ := ih hmx p hp
          exact ⟨q, by simp [hq], hfq⟩

theorem assign_scores_preserves {w : Weights} {q p : ProxyRecord}
    (h : assign_scores w q = .ok p) :
    p.is_working = q.is_working ∧ p.success_rate = q.success_rate ∧
      p.avg_latency_ms = q.avg_latency_ms := by
  unfold assign_scores at h
  split at h
  · rename_i st hes hw
    cases hc : calculate_composite_score w st with
    | error e =>
      rw [hc] at h
      simp [Bind.bind, Except.bind] at h
    | ok c =>
      rw [hc] at h
      cases hqv : calculate_qos_score w st with
      | error e =>
        rw [hqv] at h
        simp [Bind.bind, Except.bind] at h
      | ok v =>
        rw [hqv] at h
        simp only [Bind.bind, Except.bind] at h
        injection h with h
        subst h
        exact ⟨rfl, rfl, rfl⟩
  · injection h with h
    subst h
    exact ⟨rfl, rfl, rfl⟩

/-- C7: `rank_proxies` assigns scores and then stably sorts descending by the
    key `(is_working, composite_score)`: the output is a permutation of the
    scored records, pairwise non-increasing in the key (so every working
    record precedes every non-working one), and records with equal keys keep
    their original relative order (the key-filtered sublists are unchanged).
    Determinism holds by construction: the ranking is a pure function of the
    result list, with no randomness. -/
theorem rank_proxies_sorted_stable (w : Weights)
    (proxy_results scored : List ProxyRecord)
    (h : mapE (assign_scores w) proxy_results = .ok scored) :
    rank_proxies w proxy_results = .ok (sortDesc scored) ∧
    ((sortDesc scored).Pairwise fun a b => keyGTb b a = false) ∧
    ((sortDesc scored).Pairwise fun a b =>
      b.is_working = true → a.is_working = true) ∧
    (sortDesc scored).Perm scored ∧
    (∀ k : Bool × ℚ, (sortDesc scored).filter (fun p => decide (rkey p = k)) =
      scored.filter (fun p => decide (rkey p = k))) := by
  refine ⟨?_, pairwise_sortDesc scored, ?_, perm_sortDesc scored,
    fun k => filter_sortDesc scored k⟩
  · simp [rank_proxies, h, Bind.bind, Except.bind]
  · refine (pairwise_sortDesc scored).imp ?_
    intro a b hab hb
    by_contra ha
    have haf : a.is_working = false := Bool.eq_false_iff.mpr ha
    have : keyGTb b a = true := by
      unfold keyGTb lexGT rkey
      simp [hb, haf]
    rw [this] at hab
    exact absurd hab (by simp)

/-- Evaluated instance of `rank_proxies_sorted_stable`. -/
theorem rank_proxies_sorted_stable_witness :
    rank_proxies ⟨4 / 10, 35 / 100, 25 / 100⟩
        [_create_failed_result 3, _create_failed_result 5] =
      .ok (sortDesc [_create_failed_result 3, _create_failed_result 5]) ∧
    ((sortDesc [_create_failed_result 3, _create_failed_result 5]).Pairwise
      fun a b => keyGTb b a = false) ∧
    ((sortDesc [_create_failed_result 3, _create_failed_result 5]).Pairwise
      fun a b => b.is_working = true → a.is_working = true) ∧
    (sortDesc [_create_failed_result 3, _create_failed_result 5]).Perm
      [_create_failed_result 3, _create_failed_result 5] ∧
    (∀ k : Bool × ℚ,
      (sortDesc [_create_failed_result 3, _create_failed_result 5]).filter
          (fun p => decide (rkey p = k)) =
        [_create_failed_result 3, _create_failed_result 5].filter
          (fun p => decide (rkey p = k))) :=
  rank_proxies_sorted_stable ⟨4 / 10, 35 / 100, 25 / 100⟩
    [_create_failed_result 3, _create_failed_result 5]
    [_create_failed_result 3, _create_failed_result 5] rfl

/-- C3: `select_best_proxy` returns the first record in ranked order that is
    working and meets both score thresholds; when none does, it returns the
    first (i.e. highest-ranked) working record; and when no record is working
    at all it returns `None`. -/
theorem select_best_proxy_policy (w : Weights)
    (proxy_results ranked : List ProxyRecord) (minc minq : ℚ)
    (h : rank_proxies w proxy_results = .ok ranked) :
    (∀ p, ranked.find? (meets_thresholds minc minq) = some p →
      select_best_proxy w proxy_results minc minq = .ok (some p)) ∧
    (ranked.find? (meets_thresholds minc minq) = none →
      select_best_proxy w proxy_results minc minq =
        .ok (ranked.find? fun p => p.is_working)) ∧
    ((∀ p ∈ ranked, p.is_working = false) →
      select_best_proxy w proxy_results minc minq = .ok none) := by
  refine ⟨?_, ?_, ?_⟩
  · intro p hp
    simp [select_best_proxy, h, Bind.bind, Except.bind, hp]
  · intro hp
    simp [select_best_proxy, h, Bind.bind, Except.bind, hp]
  · intro hall
    have h1 : ranked.find? (meets_thresholds minc minq) = none := by
      rw [List.find?_eq_none]
      intro p hp
      simp [meets_thresholds, hall p hp]
    have h2 : (ranked.find? fun p => p.is_working) = none := by
      rw [List.find?_eq_none]
      intro p hp
      simp [hall p hp]
    simp [select_best_proxy, h, Bind.bind, Except.bind, h1, h2]

/-- Evaluated instance of `select_best_proxy_policy`. -/
theorem select_best_proxy_policy_witness :
    (∀ p, ([_create_failed_result 5].find? (meets_thresholds (6 / 10) (5 / 10)))
        = some p →
      select_best_proxy ⟨4 / 10, 35 / 100, 25 / 100⟩ [_create_failed_result 5]
        (6 / 10) (5 / 10) = .ok (some p)) ∧
    (([_create_failed_result 5].find? (meets_thresholds (6 / 10) (5 / 10)))
        = none →
      select_best_proxy ⟨4 / 10, 35 / 100, 25 / 100⟩ [_create_failed_result 5]
          (6 / 10) (5 / 10) =
        .ok ([_create_failed_result 5].find? fun p => p.is_working)) ∧
    ((∀ p ∈ [_create_failed_result 5], p.is_working = false) →
      select_best_proxy ⟨4 / 10, 35 / 100, 25 / 100⟩ [_create_failed_result 5]
        (6 / 10) (5 / 10) = .ok none) :=
  select_best_proxy_policy ⟨4 / 10, 35 / 100, 25 / 100⟩ [_create_failed_result 5]
    [_create_failed_result 5] (6 / 10) (5 / 10) rfl

/-- C10: whenever the enhanced best-proxy search returns a candidate, that
    candidate is working, its success rate is at least `min_success_rate`, and
    its average latency is defined and at most `max_latency_ms` — the
    rate/latency filter is applied to the whole result set before ranking and
    selection, score assignment preserves those fields, and selection only
    returns members of the ranked filtered set. -/
theorem find_best_candidate_meets_rate_latency (w : Weights)
    (test_results : List ProxyRecord) (minr maxl minc minq : ℚ)
    (p : ProxyRecord)
    (h : find_best_proxy_by_latency_enhanced w test_results minr maxl minc minq
      = .ok (some p)) :
    p.is_working = true ∧ minr ≤ p.success_rate ∧
      ∃ lat, p.avg_latency_ms = some lat ∧ lat ≤ maxl := by
  unfold find_best_proxy_by_latency_enhanced at h
  by_cases he : (test_results.filter (rate_latency_filter minr maxl)).isEmpty
  · rw [if_pos he] at h
    simp at h
  · rw [if_neg he] at h
    unfold select_best_proxy at h
    cases hr : rank_proxies w (test_results.filter (rate_latency_filter minr maxl))
      with
    | error e =>
      rw [hr] at h
      simp [Bind.bind, Except.bind] at h
    | ok ranked =>
      rw [hr] at h
      simp only [Bind.bind, Except.bind] at h
      have hmem : p ∈ ranked := by
        cases hf : ranked.find? (meets_thresholds minc minq) with
        | some pq =>
          rw [hf] at h
          injection h with h
          injection h with h
          subst h
          exact List.mem_of_find?_eq_some hf
        | none =>
          rw [hf] at h
          injection h with h
          exact List.mem_of_find?_eq_some h
      unfold rank_proxies at hr
      cases hm : mapE (assign_scores w)
        (test_results.filter (rate_latency_filter minr maxl)) with
      | error e =>
        rw [hm] at hr
        simp [Bind.bind, Except.bind] at hr
      | ok scored =>
        rw [hm] at hr
        simp only [Bind.bind, Except.bind] at hr
        injection hr with hr
        have hps : p ∈ scored := (perm_sortDesc scored).mem_iff.mp (hr ▸ hmem)
        obtain ⟨q, hq, hfq⟩ := mapE_mem hm p hps
        obtain ⟨e1, e2, e3⟩ := assign_scores_preserves hfq
        have hqf : rate_latency_filter minr maxl q = true := List.of_mem_filter hq
        unfold rate_latency_filter at hqf
        simp only [Bool.and_eq_true, decide_eq_true_eq] at hqf
        obtain ⟨⟨hw1, hw2⟩, hw3⟩ := hqf
        cases hal : q.avg_latency_ms with
        | none =>
          rw [hal] at hw3
          simp at hw3
        | some lat =>
          rw [hal] at hw3
          simp only [decide_eq_true_eq] at hw3
          exact ⟨by rw [e1, hw1], by rw [e2]; exact hw2, lat, by rw [e3, hal], hw3⟩

/-- Evaluated instance of `find_best_candidate_meets_rate_latency`. -/
theorem find_best_candidate_meets_rate_latency_witness :
    ProxyRecord.is_working
        ⟨true, some 100, some 100, some 100, 1, 5, 5, none, 0, 0, false⟩ = true ∧
    (1 : ℚ) ≤ ProxyRecord.success_rate
        ⟨true, some 100, some 100, some 100, 1, 5, 5, none, 0, 0, false⟩ ∧
    ∃ lat, ProxyRecord.avg_latency_ms
        ⟨true, some 100, some 100, some 100, 1, 5, 5, none, 0, 0, false⟩ =
          some lat ∧ lat ≤ (5000 : ℚ) :=
  find_best_candidate_meets_rate_latency ⟨4 / 10, 35 / 100, 25 / 100⟩
    [⟨true, some 100, some 100, some 100, 1, 5, 5, none, 0, 0, false⟩]
    1 5000 0 0 ⟨true, some 100, some 100, some 100, 1, 5, 5, none, 0, 0, false⟩
    rfl
